import Mathlib

/-!
Verification of the token-budgeted prompt chunker
(`src/ai_review/services/prompt/service.py`: `PromptService.split_prompt`,
`PromptService._split_large_section`, `PromptService._split_large_line`) and of
the retrying HTTP transport
(`src/ai_review/libs/http/transports/retry.py`: `RetryTransport.handle_async_request`).

The token counter consumed by the chunker is an external capability
(`count_tokens` in `src/ai_review/libs/llm/tokenizer.py`); the chunker is
therefore embedded parametrically in a counter `tok : String → Nat`, and the
repository's own fallback counter (`len(text) // 4 + 1`) is embedded as
`simpleCount` and used for concrete instantiations.
-/

/-- The repository's fallback token counter, from
`src/ai_review/libs/llm/tokenizer.py`: `len(text) // 4 + 1` (the branch of
`TiktokenTokenizer.count_tokens` taken when tiktoken is unavailable, equally
`SimpleTokenizer.count_tokens` with the default 4 chars per token). Python
`len` on a `str` counts code points, i.e. `String.length`. -/
def simpleCount (text : String) : Nat := text.length / 4 + 1

/-- Python `text.split("\n")` on the underlying character list: cut at every
newline character, keeping empty pieces; `"".split("\n") == [""]`. -/
def splitLinesList : List Char → List (List Char)
  | [] => [[]]
  | c :: cs =>
    match splitLinesList cs with
    | [] => [[c]]
    | l :: ls => if c = '\n' then [] :: l :: ls else (c :: l) :: ls

/-- Python `prompt.split("\n")`. -/
def splitLines (s : String) : List String :=
  (splitLinesList s.data).map (fun cs => String.mk cs)

/-- Python `"\n".join(lines)`. -/
def joinLines (lines : List String) : String := String.intercalate "\n" lines

/-- Python `str.startswith`, on character lists (first argument is the
pattern, second the text). -/
def startsWithChars : List Char → List Char → Bool
  | [], _ => true
  | _ :: _, [] => false
  | p :: ps, c :: cs => p = c && startsWithChars ps cs

/-- Python `line.startswith("# File:")`, the section-marker test used
throughout `PromptService.split_prompt`. -/
def isFileHeader (line : String) : Bool :=
  startsWithChars "# File:".data line.data

/-- The slice loop of `PromptService._split_large_line`: Python
`for i in range(0, len(line), max_chars): chunks.append(line[i:i + max_chars])`.
First argument is `max_chars`. A step of `0` would make Python's `range`
raise `ValueError`; the function is only ever called with a positive token
budget, and the `0` case here returns `[]` purely for totality. -/
def sliceChars : Nat → List Char → List (List Char)
  | _, [] => []
  | 0, _ :: _ => []
  | k + 1, c :: cs => ((c :: cs).take (k + 1)) :: sliceChars (k + 1) ((c :: cs).drop (k + 1))
  termination_by _ l => l.length
  decreasing_by
  simp only [List.length_drop, List.length_cons]
  omega

/-- `PromptService._split_large_line(line, max_tokens)`:
`avg_chars_per_token = 4`, `max_chars = max_tokens * avg_chars_per_token`,
then fixed-size character slices of the line. -/
def split_large_line (line : String) (max_tokens : Nat) : List String :=
  (sliceChars (max_tokens * 4) line.data).map (fun cs => String.mk cs)

/-- The `for i, line in enumerate(lines)` loop of
`PromptService._split_large_section`. Arguments after the fixed parameters
`tok`, `max_tokens`, `header`: the remaining lines, the index `i` of the next
line, the accumulator `current_chunk`, and its running total `current_tokens`.
After the loop the non-empty accumulator is flushed. -/
def split_large_section_loop (tok : String → Nat) (max_tokens : Nat) (header : Option String) :
    List String → Nat → List String → Nat → List String
  | [], _, acc, _ => if acc.isEmpty then [] else [joinLines acc]
  | line :: rest, i, acc, accTok =>
    let line_tokens := tok line
    if accTok + line_tokens ≤ max_tokens then
      split_large_section_loop tok max_tokens header rest (i + 1) (acc ++ [line]) (accTok + line_tokens)
    else
      let flushed : List String := if acc.isEmpty then [] else [joinLines acc]
      let acc1 : List String :=
        if acc.isEmpty then acc
        else
          match header with
          | some h => if 0 < i then [h] else []
          | none => []
      let accTok1 : Nat :=
        if acc.isEmpty then accTok
        else
          match header with
          | some h => if 0 < i then tok h else 0
          | none => 0
      if line_tokens ≤ max_tokens then
        let acc2 : List String :=
          if acc1.isEmpty then (match header with | some h => [h] | none => acc1) else acc1
        let accTok2 : Nat :=
          if acc1.isEmpty then (match header with | some h => tok h | none => accTok1) else accTok1
        flushed ++
          split_large_section_loop tok max_tokens header rest (i + 1) (acc2 ++ [line]) (accTok2 + line_tokens)
      else
        let subs := split_large_line line max_tokens
        let subs2 :=
          match header with
          | some h => subs.map (fun c => h ++ "\n" ++ c)
          | none => subs
        flushed ++ subs2 ++ split_large_section_loop tok max_tokens header rest (i + 1) acc1 accTok1

/-- `PromptService._split_large_section(section, max_tokens)`: split the
section into lines, remember the `"# File:"` header if the first line is one,
and run the line loop. -/
def split_large_section (tok : String → Nat) (section_text : String) (max_tokens : Nat) :
    List String :=
  let lines := splitLines section_text
  let header : Option String :=
    match lines with
    | [] => none
    | l :: _ => if isFileHeader l then some l else none
  split_large_section_loop tok max_tokens header lines 0 [] 0

/-- The `while i < len(lines)` loop of `PromptService.split_prompt`.
Arguments after the fixed parameters `tok`, `avail`: the remaining lines, the
accumulator `current_chunk`, and its running total `current_tokens`.

On a `"# File:"` header line the pending accumulator is flushed, the whole
section (up to the next header) is collected, and it is emitted as one chunk
when it fits, otherwise via `_split_large_section`. On a non-header line that
would overflow a non-empty accumulator, the source flushes the accumulator
and does not advance `i`, reconsidering the same line with an empty
accumulator; that reconsideration is the recursive call on `line :: rest`
with an empty accumulator. The force-split branch (taken only with an empty
accumulator) leaves `current_tokens` untouched, as the source does. After
the loop the non-empty accumulator is flushed. -/
def split_prompt_loop (tok : String → Nat) (avail : Nat) :
    List String → List String → Nat → List String
  | [], acc, _ => if acc.isEmpty then [] else [joinLines acc]
  | line :: rest, acc, accTok =>
    if isFileHeader line then
      let flushed : List String := if acc.isEmpty then [] else [joinLines acc]
      let file_section := line :: rest.takeWhile (fun l => !(isFileHeader l))
      let remaining := rest.dropWhile (fun l => !(isFileHeader l))
      let file_text := joinLines file_section
      let file_chunks :=
        if tok file_text ≤ avail then [file_text]
        else split_large_section tok file_text avail
      flushed ++ file_chunks ++ split_prompt_loop tok avail remaining [] 0
    else
      let line_tokens := tok line
      if accTok + line_tokens ≤ avail then
        split_prompt_loop tok avail rest (acc ++ [line]) (accTok + line_tokens)
      else
        if acc.isEmpty then
          split_large_line line avail ++ split_prompt_loop tok avail rest [] accTok
        else
          [joinLines acc] ++ split_prompt_loop tok avail (line :: rest) [] 0
  termination_by lines acc _ => (lines.length, acc.length)
  decreasing_by
  · refine Prod.Lex.left _ _ ?_
    have hd := (List.dropWhile_sublist (l := rest) (fun l => !(isFileHeader l))).length_le
    simp only [List.length_cons]
    omega
  · exact Prod.Lex.left _ _ (by simp)
  · exact Prod.Lex.left _ _ (by simp)
  · refine Prod.Lex.right _ ?_
    rename_i h
    simp only [List.isEmpty_iff] at h
    simpa using List.length_pos.mpr h

/-- The system-prompt token cost computed by `PromptService.split_prompt`:
`count_tokens(system_prompt) if system_prompt else 0` (an empty system prompt
costs 0 without consulting the counter). -/
def system_tokens_of (tok : String → Nat) (system_prompt : String) : Int :=
  if system_prompt = "" then 0 else (tok system_prompt : Int)

/-- `available_tokens = max_tokens - system_tokens - 100` from
`PromptService.split_prompt` (100 tokens are reserved for completion). -/
def available_tokens_of (tok : String → Nat) (max_tokens : Int) (system_prompt : String) : Int :=
  max_tokens - system_tokens_of tok system_prompt - 100

/-- `PromptService.split_prompt(prompt, max_tokens, system_prompt)`,
parameterized by the token counter `tok` (`count_tokens` in the source). -/
def split_prompt (tok : String → Nat) (prompt : String) (max_tokens : Int)
    (system_prompt : String) : List String :=
  let available_tokens := available_tokens_of tok max_tokens system_prompt
  if available_tokens ≤ 0 then []
  else if (tok prompt : Int) ≤ available_tokens then [prompt]
  else split_prompt_loop tok available_tokens.toNat (splitLines prompt) [] 0

/-! ### The retrying transport -/

/-- One attempt's outcome from the wrapped one-shot transport: either a
response (`ρ`) or a thrown exception (`ε`). -/
inductive Outcome (ρ ε : Type) : Type
  | resp : ρ → Outcome ρ ε
  | exn : ε → Outcome ρ ε
deriving DecidableEq

/-- The observable result of `RetryTransport.handle_async_request`: a returned
response, a propagated (re-raised) underlying exception, or the dedicated
exhaustion error `Exception(f"All {max_retries} attempts failed for
{request.method} {request.url}")`, which carries the attempt count and the
target endpoint. -/
inductive SendResult (ρ ε : Type) : Type
  | response : ρ → SendResult ρ ε
  | raised : ε → SendResult ρ ε
  | exhausted : Nat → String → SendResult ρ ε
deriving DecidableEq

/-- The per-instance configuration of `RetryTransport.__init__`:
`max_retries`, the retryable status codes, and the `isinstance` test against
`retry_exceptions` (the fixed `retry_delay` only affects sleep duration,
which the embedding records as a count of sleeps). -/
structure RetryConfig (ρ ε : Type) : Type where
  max_retries : Nat
  status_code : ρ → Nat
  retry_status_codes : List Nat
  retry_exceptions : ε → Bool

/-- Default `retry_status_codes` of `RetryTransport.__init__`: BAD_GATEWAY,
GATEWAY_TIMEOUT, SERVICE_UNAVAILABLE, INTERNAL_SERVER_ERROR. -/
def defaultRetryStatusCodes : List Nat := [502, 504, 503, 500]

/-- The `for attempt in range(self.max_retries)` loop of
`RetryTransport.handle_async_request`, including the epilogue once the loop
ends (return `last_response` if one was ever observed, else raise the
exhaustion error). `transport attempt` is the underlying one-shot transport's
outcome on the given 0-based attempt; `fuel` is the number of loop iterations
left (`max_retries - attempt`); `last` is `last_response` (httpx's `Response`
defines no `__bool__`, so the source's `if last_response:` is a
not-`None` test, `Option.isSome` here). Returns the result together with the
number of underlying transport invocations and the number of
`asyncio.sleep(retry_delay)` suspensions. -/
def retry_loop {ρ ε : Type} (cfg : RetryConfig ρ ε) (transport : Nat → Outcome ρ ε)
    (endpoint : String) : Nat → Nat → Option ρ → SendResult ρ ε × Nat × Nat
  | 0, _, last =>
    match last with
    | some r => (SendResult.response r, 0, 0)
    | none => (SendResult.exhausted cfg.max_retries endpoint, 0, 0)
  | fuel + 1, attempt, last =>
    match transport attempt with
    | Outcome.resp r =>
      if cfg.status_code r ∈ cfg.retry_status_codes then
        let rest := retry_loop cfg transport endpoint fuel (attempt + 1) (some r)
        (rest.1, rest.2.1 + 1, rest.2.2 + 1)
      else (SendResult.response r, 1, 0)
    | Outcome.exn e =>
      if cfg.retry_exceptions e then
        let rest := retry_loop cfg transport endpoint fuel (attempt + 1) last
        (rest.1, rest.2.1 + 1, rest.2.2 + 1)
      else (SendResult.raised e, 1, 0)

/-- `RetryTransport.handle_async_request(request)`: run the attempt loop from
attempt 0 with no response observed yet. -/
def handle_async_request {ρ ε : Type} (cfg : RetryConfig ρ ε)
    (transport : Nat → Outcome ρ ε) (endpoint : String) : SendResult ρ ε × Nat × Nat :=
  retry_loop cfg transport endpoint cfg.max_retries 0 none

/-- An attempt outcome the loop retries after: a response whose status is in
the retryable set, or an exception passing the `isinstance` test. -/
def retryableOutcome {ρ ε : Type} (cfg : RetryConfig ρ ε) : Outcome ρ ε → Prop
  | Outcome.resp r => cfg.status_code r ∈ cfg.retry_status_codes
  | Outcome.exn e => cfg.retry_exceptions e = true

instance {ρ ε : Type} (cfg : RetryConfig ρ ε) : DecidablePred (retryableOutcome cfg) := by
  intro o
  cases o with
  | resp r => exact inferInstanceAs (Decidable (cfg.status_code r ∈ cfg.retry_status_codes))
  | exn e => exact inferInstanceAs (Decidable (cfg.retry_exceptions e = true))

/-! ### Concrete instances used by witnesses and counterexamples -/

/-- A concrete retry configuration: `max_retries = 5` (the source default),
responses are bare status codes, exceptions are booleans with `true`
retryable. -/
def retryCfg5 : RetryConfig Nat Bool :=
  { max_retries := 5
    status_code := fun s => s
    retry_status_codes := defaultRetryStatusCodes
    retry_exceptions := fun b => b }

/-- A retry configuration with `max_retries = 0`. -/
def retryCfg0 : RetryConfig Nat Bool :=
  { max_retries := 0
    status_code := fun s => s
    retry_status_codes := defaultRetryStatusCodes
    retry_exceptions := fun b => b }

/-- A `"# File:"` header line of 38 characters (10 fallback tokens). -/
def headerC1 : String := "# File: aaaaaaaaaaaaaaaaaaaaaaaaaaaaaa"

/-- A content line of 41 characters (11 fallback tokens). -/
def lineC1a : String := "bbbbbbbbbbbbbbbbbbbbbbbbbbbbbbbbbbbbbbbbb"

/-- A content line of 4 characters (2 fallback tokens). -/
def lineC1b : String := "cccc"

/-- A prompt consisting of one `"# File:"` section whose lines each fit a
budget of 20 tokens but whose total (22 tokens) does not. -/
def promptC1 : String := headerC1 ++ "\n" ++ lineC1a ++ "\n" ++ lineC1b

/-- A prompt whose pre-header content (six 2-character lines, joined token
count 5) fits a budget of 5 tokens, followed by one fitting section. -/
def promptC7 : String := "ab\nab\nab\nab\nab\nab\n# File: x"

/-- A prompt with one pre-header line and two `"# File:"` sections, each
fitting a budget of 5 tokens, total token count 8. -/
def promptC7w : String := "intro\n# File: a\nxa\n# File: b\nyb"

/-- The same two sections with no pre-header content at all: the prompt
starts directly with a `"# File:"` header. Total token count 7. -/
def promptC7hdr : String := "# File: a\nxa\n# File: b\nyb"

/-- Per-line token sum, the measure `split_prompt`'s accumulator tracks. -/
def sumTok (tok : String → Nat) (lines : List String) : Nat := (lines.map tok).sum

/-- The lines a `(header, body)` section contributes to the prompt. -/
def secLines (s : String × List String) : List String := s.1 :: s.2

/-- All lines of a list of sections. -/
def secsLines (secs : List (String × List String)) : List String :=
  (secs.map secLines).flatten

/-- The single chunk a fitting section is emitted as. -/
def secChunk (s : String × List String) : String := joinLines (secLines s)

/-! ### Retry transport: helper lemmas -/

/-- If every attempt in the window returns a retryable-status response, the
loop runs `fuel` more attempts (sleeping after each) and ends up returning
the response of the last attempt, whatever `last_response` held before. -/
lemma retry_loop_resp_exhaust {ρ ε : Type} (cfg : RetryConfig ρ ε)
    (transport : Nat → Outcome ρ ε) (endpoint : String) :
    ∀ (fuel attempt : Nat) (last : Option ρ) (r : ρ), 0 < fuel →
      (∀ i, i < fuel → ∃ s, transport (attempt + i) = Outcome.resp s ∧
        cfg.status_code s ∈ cfg.retry_status_codes) →
      transport (attempt + fuel - 1) = Outcome.resp r →
      retry_loop cfg transport endpoint fuel attempt last =
        (SendResult.response r, fuel, fuel) := by
  intro fuel
  induction fuel with
  | zero =>
    intro attempt last r hpos _ _
    exact absurd hpos (by omega)
  | succ f ih =>
    intro attempt last r _ hall hlast
    obtain ⟨s, hs, hmem⟩ := hall 0 (Nat.succ_pos f)
    rw [Nat.add_zero] at hs
    rcases Nat.eq_zero_or_pos f with hf | hf
    · subst hf
      have hlast0 : transport attempt = Outcome.resp r := by
        have harg : attempt + 1 - 1 = attempt := by omega
        rw [harg] at hlast
        exact hlast
      have hsr : s = r := by
        have := hs.symm.trans hlast0
        exact Outcome.resp.inj this
      subst hsr
      simp [retry_loop, hs, hmem]
    · have hinner := ih (attempt + 1) (some s) r hf
        (fun i hi => by
          have harg : attempt + 1 + i = attempt + (i + 1) := by omega
          rw [harg]
          exact hall (i + 1) (by omega))
        (by
          have harg : attempt + 1 + f - 1 = attempt + (f + 1) - 1 := by omega
          rw [harg]
          exact hlast)
      simp [retry_loop, hs, hmem, hinner]

/-- If every attempt in the window raises a retryable exception and no
response has been observed, the loop runs `fuel` more attempts and ends in
the exhaustion error. -/
lemma retry_loop_exn_exhaust {ρ ε : Type} (cfg : RetryConfig ρ ε)
    (transport : Nat → Outcome ρ ε) (endpoint : String) :
    ∀ (fuel attempt : Nat),
      (∀ i, i < fuel → ∃ e, transport (attempt + i) = Outcome.exn e ∧
        cfg.retry_exceptions e = true) →
      retry_loop cfg transport endpoint fuel attempt none =
        (SendResult.exhausted cfg.max_retries endpoint, fuel, fuel) := by
  intro fuel
  induction fuel with
  | zero =>
    intro attempt _
    simp [retry_loop]
  | succ f ih =>
    intro attempt hall
    obtain ⟨e, he, hmem⟩ := hall 0 (Nat.succ_pos f)
    rw [Nat.add_zero] at he
    have hinner := ih (attempt + 1)
      (fun i hi => by
        have harg : attempt + 1 + i = attempt + (i + 1) := by omega
        rw [harg]
        exact hall (i + 1) (by omega))
    simp [retry_loop, he, hmem, hinner]

/-- If attempts `attempt, …, attempt + m - 1` are all retryable and attempt
`attempt + m` returns a non-retryable-status response `r` before the fuel
runs out, the loop returns `r` after `m + 1` invocations and `m` sleeps. -/
lemma retry_loop_success_at {ρ ε : Type} (cfg : RetryConfig ρ ε)
    (transport : Nat → Outcome ρ ε) (endpoint : String) :
    ∀ (m fuel attempt : Nat) (last : Option ρ) (r : ρ), m < fuel →
      (∀ i, i < m → retryableOutcome cfg (transport (attempt + i))) →
      transport (attempt + m) = Outcome.resp r →
      cfg.status_code r ∉ cfg.retry_status_codes →
      retry_loop cfg transport endpoint fuel attempt last =
        (SendResult.response r, m + 1, m) := by
  intro m
  induction m with
  | zero =>
    intro fuel attempt last r hm _ hsucc hst
    obtain ⟨f, rfl⟩ : ∃ f, fuel = f + 1 := ⟨fuel - 1, by omega⟩
    rw [Nat.add_zero] at hsucc
    simp [retry_loop, hsucc, hst]
  | succ n ih =>
    intro fuel attempt last r hm hretry hsucc hst
    obtain ⟨f, rfl⟩ : ∃ f, fuel = f + 1 := ⟨fuel - 1, by omega⟩
    have h0 := hretry 0 (Nat.succ_pos n)
    rw [Nat.add_zero] at h0
    have hshift : ∀ i, i < n → retryableOutcome cfg (transport (attempt + 1 + i)) := by
      intro i hi
      have harg : attempt + 1 + i = attempt + (i + 1) := by omega
      rw [harg]
      exact hretry (i + 1) (by omega)
    have hsucc1 : transport (attempt + 1 + n) = Outcome.resp r := by
      have harg : attempt + 1 + n = attempt + (n + 1) := by omega
      rw [harg]
      exact hsucc
    cases hT : transport attempt with
    | resp s =>
      rw [hT] at h0
      have hmem : cfg.status_code s ∈ cfg.retry_status_codes := h0
      have hinner := ih f (attempt + 1) (some s) r (by omega) hshift hsucc1 hst
      simp [retry_loop, hT, hmem, hinner]
    | exn e =>
      rw [hT] at h0
      have hmem : cfg.retry_exceptions e = true := h0
      have hinner := ih f (attempt + 1) last r (by omega) hshift hsucc1 hst
      simp [retry_loop, hT, hmem, hinner]

/-! ### Claim theorems: retry transport -/

/-- C2: if every attempt returns a response whose status is in the
retryable-status set, `handle_async_request` performs exactly `max_retries`
attempts and then returns the response observed on the final attempt
unchanged (a `SendResult.response`, so nothing is raised). -/
theorem retry_exhaustion_with_response {ρ ε : Type} (cfg : RetryConfig ρ ε)
    (transport : Nat → Outcome ρ ε) (endpoint : String) (r : ρ)
    (hpos : 0 < cfg.max_retries)
    (hall : ∀ i, i < cfg.max_retries → ∃ s, transport i = Outcome.resp s ∧
      cfg.status_code s ∈ cfg.retry_status_codes)
    (hlast : transport (cfg.max_retries - 1) = Outcome.resp r) :
    handle_async_request cfg transport endpoint =
      (SendResult.response r, cfg.max_retries, cfg.max_retries) := by
  unfold handle_async_request
  exact retry_loop_resp_exhaust cfg transport endpoint cfg.max_retries 0 none r hpos
    (fun i hi => by simpa using hall i hi) (by simpa using hlast)

/-- Witness for C2: the transport always answers 503; with the default
5 retries the call returns the final 503 response after 5 attempts. -/
theorem retry_exhaustion_with_response_witness :
    handle_async_request retryCfg5 (fun _ => Outcome.resp 503) "POST https://llm/chat" =
      (SendResult.response 503, 5, 5) :=
  retry_exhaustion_with_response retryCfg5 (fun _ => Outcome.resp 503) "POST https://llm/chat"
    503 (by decide) (fun _ _ => ⟨503, rfl, by decide⟩) rfl

/-- C3: if every attempt raises a retryable exception, `handle_async_request`
performs exactly `max_retries` attempts and then raises the dedicated
exhaustion error, which carries the attempt count and the target endpoint and
is distinct from any re-raised underlying exception. -/
theorem retry_exhaustion_without_response {ρ ε : Type} (cfg : RetryConfig ρ ε)
    (transport : Nat → Outcome ρ ε) (endpoint : String)
    (hall : ∀ i, i < cfg.max_retries → ∃ e, transport i = Outcome.exn e ∧
      cfg.retry_exceptions e = true) :
    handle_async_request cfg transport endpoint =
      (SendResult.exhausted cfg.max_retries endpoint, cfg.max_retries, cfg.max_retries) ∧
    ∀ e : ε, (handle_async_request cfg transport endpoint).1 ≠ SendResult.raised e := by
  have h : handle_async_request cfg transport endpoint =
      (SendResult.exhausted cfg.max_retries endpoint, cfg.max_retries, cfg.max_retries) := by
    unfold handle_async_request
    exact retry_loop_exn_exhaust cfg transport endpoint cfg.max_retries 0
      (fun i hi => by simpa using hall i hi)
  refine ⟨h, ?_⟩
  intro e
  rw [h]
  simp

/-- Witness for C3: the transport always raises a retryable exception; with
the default 5 retries the call ends in the exhaustion error after 5
attempts. -/
theorem retry_exhaustion_without_response_witness :
    handle_async_request retryCfg5 (fun _ => Outcome.exn true) "POST https://llm/chat" =
      (SendResult.exhausted 5 "POST https://llm/chat", 5, 5) ∧
    ∀ e : Bool, (handle_async_request retryCfg5 (fun _ => Outcome.exn true)
      "POST https://llm/chat").1 ≠ SendResult.raised e :=
  retry_exhaustion_without_response retryCfg5 (fun _ => Outcome.exn true) "POST https://llm/chat"
    (fun _ _ => ⟨true, rfl, rfl⟩)

/-- C8: if attempts `1..k-1` fail retryably (status or exception) and attempt
`k ≤ max_retries` returns a non-retryable-status response, the call returns
that response and the underlying transport was invoked exactly `k` times. -/
theorem retry_success {ρ ε : Type} (cfg : RetryConfig ρ ε)
    (transport : Nat → Outcome ρ ε) (endpoint : String) (k : Nat) (r : ρ)
    (hk1 : 1 ≤ k) (hk2 : k ≤ cfg.max_retries)
    (hretry : ∀ i, i < k - 1 → retryableOutcome cfg (transport i))
    (hsucc : transport (k - 1) = Outcome.resp r)
    (hst : cfg.status_code r ∉ cfg.retry_status_codes) :
    handle_async_request cfg transport endpoint = (SendResult.response r, k, k - 1) := by
  unfold handle_async_request
  have h := retry_loop_success_at cfg transport endpoint (k - 1) cfg.max_retries 0 none r
    (by omega) (fun i hi => by simpa using hretry i hi) (by simpa using hsucc) hst
  rw [h]
  have harg : k - 1 + 1 = k := by omega
  rw [harg]

/-- Witness for C8 at `k = 3`: two 502 responses, then a 200; the call
returns the 200 response after exactly 3 invocations. -/
theorem retry_success_witness :
    handle_async_request retryCfg5
      (fun i => if i < 2 then Outcome.resp 502 else Outcome.resp 200) "GET https://llm" =
      (SendResult.response 200, 3, 2) :=
  retry_success retryCfg5 (fun i => if i < 2 then Outcome.resp 502 else Outcome.resp 200)
    "GET https://llm" 3 200 (by decide) (by decide)
    (fun i hi => by
      interval_cases i <;> exact (by decide : retryableOutcome retryCfg5 (Outcome.resp 502)))
    rfl (by decide)

/-- C9: a non-retryable exception on the first attempt is re-raised
immediately: one invocation, no sleep, the same exception propagated. -/
theorem nonretryable_short_circuit {ρ ε : Type} (cfg : RetryConfig ρ ε)
    (transport : Nat → Outcome ρ ε) (endpoint : String) (e : ε)
    (hpos : 0 < cfg.max_retries)
    (h0 : transport 0 = Outcome.exn e)
    (hnr : cfg.retry_exceptions e = false) :
    handle_async_request cfg transport endpoint = (SendResult.raised e, 1, 0) := by
  unfold handle_async_request
  obtain ⟨f, hf⟩ : ∃ f, cfg.max_retries = f + 1 := ⟨cfg.max_retries - 1, by omega⟩
  rw [hf]
  simp [retry_loop, h0, hnr]

/-- Witness for C9: a non-retryable exception (`false`) on attempt 0 is
re-raised after exactly one invocation and zero sleeps. -/
theorem nonretryable_short_circuit_witness :
    handle_async_request retryCfg5 (fun _ => Outcome.exn false) "GET https://llm" =
      (SendResult.raised false, 1, 0) :=
  nonretryable_short_circuit retryCfg5 (fun _ => Outcome.exn false) "GET https://llm" false
    (by decide) rfl rfl

/-- C10: with `max_retries = 0` the attempt loop never executes, so no
response is ever observed and `handle_async_request` raises the exhaustion
error (carrying the attempt count 0 and the endpoint) with zero underlying
invocations, for every transport behaviour. -/
theorem zero_max_retries_exhausts_without_attempt {ρ ε : Type} (cfg : RetryConfig ρ ε)
    (transport : Nat → Outcome ρ ε) (endpoint : String)
    (h : cfg.max_retries = 0) :
    handle_async_request cfg transport endpoint =
      (SendResult.exhausted 0 endpoint, 0, 0) := by
  unfold handle_async_request
  rw [h]
  simp [retry_loop, h]

/-- Witness for C10: a transport that would answer 200 is never consulted
when `max_retries = 0`; the call raises the exhaustion error directly. -/
theorem zero_max_retries_exhausts_without_attempt_witness :
    handle_async_request retryCfg0 (fun _ => Outcome.resp 200) "GET https://llm" =
      (SendResult.exhausted 0 "GET https://llm", 0, 0) :=
  zero_max_retries_exhausts_without_attempt retryCfg0 (fun _ => Outcome.resp 200)
    "GET https://llm" rfl

/-! ### Chunker: helper lemmas -/

/-- The system token cost the code charges never exceeds the counter's value
on the system prompt (for an empty system prompt the code charges 0). -/
lemma system_tokens_of_le (tok : String → Nat) (system_prompt : String) :
    system_tokens_of tok system_prompt ≤ (tok system_prompt : Int) := by
  unfold system_tokens_of
  split
  · exact Int.natCast_nonneg _
  · exact le_refl _

/-- Appending to a `String.mk` is `String.mk` of the appended data. -/
lemma string_append_mk (s : String) (cs : List Char) :
    s ++ String.mk cs = String.mk (s.data ++ cs) := by
  cases s
  rfl

/-- `String.mk` is a left inverse of `String.data`. -/
lemma string_mk_data (s : String) : String.mk s.data = s := by
  cases s
  rfl

/-- Folding append over `String.mk`s concatenates the underlying data. -/
lemma string_foldl_append_map_mk (ll : List (List Char)) :
    ∀ acc : String,
      List.foldl (· ++ ·) acc (ll.map (fun cs => String.mk cs)) =
        String.mk (acc.data ++ ll.flatten) := by
  induction ll with
  | nil =>
    intro acc
    simp [string_mk_data]
  | cons l ls ih =>
    intro acc
    simp only [List.map_cons, List.foldl_cons, List.flatten_cons]
    rw [ih (acc ++ String.mk l), string_append_mk]
    simp

/-- The slices produced by `sliceChars` with a positive width concatenate
back to the original character list. -/
lemma sliceChars_join (k : Nat) :
    ∀ (n : Nat) (cs : List Char), cs.length ≤ n →
      (sliceChars (k + 1) cs).flatten = cs := by
  intro n
  induction n with
  | zero =>
    intro cs h
    have hnil : cs = [] := List.eq_nil_of_length_eq_zero (by omega)
    subst hnil
    simp [sliceChars]
  | succ n ih =>
    intro cs h
    match cs with
    | [] => simp [sliceChars]
    | c :: cs' =>
      rw [sliceChars]
      simp only [List.flatten_cons]
      rw [List.drop_succ_cons]
      rw [ih (List.drop k cs') (by simp only [List.length_drop]; simp at h; omega)]
      rw [show List.drop k cs' = List.drop (k + 1) (c :: cs') from (List.drop_succ_cons ..).symm]
      exact List.take_append_drop _ _

/-! ### Claim theorems: chunker C4, C5, C6 -/

/-- C4: when `maxTokens - tokens(systemPrompt) - RESERVE > 0` and the whole
prompt's token count is within that budget, `split_prompt` returns exactly
the one-element list containing the prompt unchanged (for every counter). -/
theorem fit_invariant (tok : String → Nat) (prompt system_prompt : String) (max_tokens : Int)
    (havail : 0 < max_tokens - (tok system_prompt : Int) - 100)
    (hfit : (tok prompt : Int) ≤ max_tokens - (tok system_prompt : Int) - 100) :
    split_prompt tok prompt max_tokens system_prompt = [prompt] := by
  have hsys := system_tokens_of_le tok system_prompt
  have hcode : max_tokens - (tok system_prompt : Int) - 100 ≤
      available_tokens_of tok max_tokens system_prompt := by
    unfold available_tokens_of
    omega
  unfold split_prompt
  rw [if_neg (by omega), if_pos (by omega)]

/-- Witness for C4: `"hello"` (2 fallback tokens) against a budget of
`110 - 2 - 100 = 8` available tokens comes back as the single identity
chunk. -/
theorem fit_invariant_witness :
    (0 : Int) < 110 - (simpleCount "ssss" : Int) - 100 ∧
    (simpleCount "hello" : Int) ≤ 110 - (simpleCount "ssss" : Int) - 100 ∧
    split_prompt simpleCount "hello" 110 "ssss" = ["hello"] :=
  ⟨by decide, by decide,
    fit_invariant simpleCount "hello" "ssss" 110 (by decide) (by decide)⟩

/-- Counterexample to C5 as stated: under the repository's fallback counter
`tokens("") = 1`, so with `systemPrompt = ""` and `maxTokens = 101` the
claim's hypothesis `tokens(systemPrompt) + RESERVE >= maxTokens` holds, yet
the code charges 0 for the empty system prompt (`count_tokens(system_prompt)
if system_prompt else 0`), computes `available = 1 > 0`, and returns the
identity chunk `[""]`, not the empty sequence. -/
theorem degenerate_budget_cex :
    (simpleCount "" : Int) + 100 ≥ 101 ∧
    split_prompt simpleCount "" 101 "" = [""] ∧
    split_prompt simpleCount "" 101 "" ≠ [] := by
  refine ⟨by decide, by decide, by decide⟩

/-- C5 (amended): with the system token cost the code actually charges —
`tokens(systemPrompt)` for a non-empty system prompt and 0 for an empty one —
if that cost plus `RESERVE = 100` reaches `maxTokens`, `split_prompt`
returns the empty sequence regardless of prompt content (no exception is
modelled: the function is total and signals by the empty list). -/
theorem degenerate_budget_amended (tok : String → Nat) (prompt system_prompt : String)
    (max_tokens : Int)
    (h : max_tokens ≤ system_tokens_of tok system_prompt + 100) :
    split_prompt tok prompt max_tokens system_prompt = [] := by
  have hle : available_tokens_of tok max_tokens system_prompt ≤ 0 := by
    unfold available_tokens_of
    omega
  unfold split_prompt
  rw [if_pos hle]

/-- Witness for C5 (amended): system prompt `"ssss"` costs 2 fallback
tokens; with `maxTokens = 102 ≤ 2 + 100` the result is empty whatever the
prompt. -/
theorem degenerate_budget_amended_witness :
    (102 : Int) ≤ system_tokens_of simpleCount "ssss" + 100 ∧
    split_prompt simpleCount "some prompt content" 102 "ssss" = [] :=
  ⟨by decide,
    degenerate_budget_amended simpleCount "some prompt content" "ssss" 102 (by decide)⟩

/-- C6: for every line and every positive token budget, concatenating the
slices emitted by `_split_large_line` in order reproduces the original line
exactly. -/
theorem force_split_concat (line : String) (max_tokens : Nat) (h : 0 < max_tokens) :
    String.join (split_large_line line max_tokens) = line := by
  obtain ⟨k, hk⟩ : ∃ k, max_tokens * 4 = k + 1 := ⟨max_tokens * 4 - 1, by omega⟩
  unfold split_large_line String.join
  rw [hk, string_foldl_append_map_mk]
  rw [sliceChars_join k line.data.length line.data le_rfl]
  have hempty : ("" : String).data = [] := rfl
  rw [hempty, List.nil_append]

/-- Witness for C6: a 9-character line force-split with budget 1 (slice
width 4) concatenates back to the original line. -/
theorem force_split_concat_witness :
    0 < 1 ∧ String.join (split_large_line "abcdefghi" 1) = "abcdefghi" :=
  ⟨Nat.one_pos, force_split_concat "abcdefghi" 1 Nat.one_pos⟩

/-- `takeWhile` walks through an all-true prefix. -/
lemma takeWhile_append_of_all {α : Type} (p : α → Bool) :
    ∀ (xs ys : List α), (∀ x ∈ xs, p x = true) →
      (xs ++ ys).takeWhile p = xs ++ ys.takeWhile p := by
  intro xs
  induction xs with
  | nil =>
    intro ys _
    simp
  | cons x xs ih =>
    intro ys hall
    have hx : p x = true := hall x (by simp)
    simp only [List.cons_append, List.takeWhile_cons_of_pos hx]
    rw [ih ys (fun y hy => hall y (List.mem_cons_of_mem _ hy))]

/-- `dropWhile` drops an all-true prefix. -/
lemma dropWhile_append_of_all {α : Type} (p : α → Bool) :
    ∀ (xs ys : List α), (∀ x ∈ xs, p x = true) →
      (xs ++ ys).dropWhile p = ys.dropWhile p := by
  intro xs
  induction xs with
  | nil =>
    intro ys _
    simp
  | cons x xs ih =>
    intro ys hall
    have hx : p x = true := hall x (by simp)
    simp only [List.cons_append, List.dropWhile_cons_of_pos hx]
    exact ih ys (fun y hy => hall y (List.mem_cons_of_mem _ hy))

/-- The lines of a list of header-led sections have no non-header prefix. -/
lemma secsLines_takeWhile (secs : List (String × List String))
    (hsecs : ∀ s ∈ secs, isFileHeader s.1 = true) :
    (secsLines secs).takeWhile (fun l => !(isFileHeader l)) = [] := by
  cases secs with
  | nil => rfl
  | cons s rest =>
    have hs : isFileHeader s.1 = true := hsecs s (by simp)
    have : secsLines (s :: rest) = s.1 :: (s.2 ++ secsLines rest) := by
      simp [secsLines, secLines]
    rw [this, List.takeWhile_cons_of_neg (by simp [hs])]

/-- Dropping the non-header prefix of header-led section lines is a no-op. -/
lemma secsLines_dropWhile (secs : List (String × List String))
    (hsecs : ∀ s ∈ secs, isFileHeader s.1 = true) :
    (secsLines secs).dropWhile (fun l => !(isFileHeader l)) = secsLines secs := by
  cases secs with
  | nil => rfl
  | cons s rest =>
    have hs : isFileHeader s.1 = true := hsecs s (by simp)
    have : secsLines (s :: rest) = s.1 :: (s.2 ++ secsLines rest) := by
      simp [secsLines, secLines]
    rw [this, List.dropWhile_cons_of_neg (by simp [hs])]

/-! ### Step equations of the main loop -/

/-- Loop exit: flush the accumulator if non-empty. -/
lemma split_prompt_loop_nil (tok : String → Nat) (avail : Nat) (acc : List String)
    (accTok : Nat) :
    split_prompt_loop tok avail [] acc accTok =
      if acc.isEmpty then [] else [joinLines acc] := by
  simp [split_prompt_loop]

/-- Loop step on a `"# File:"` header line. -/
lemma split_prompt_loop_cons_header (tok : String → Nat) (avail : Nat) (line : String)
    (rest acc : List String) (accTok : Nat) (hh : isFileHeader line = true) :
    split_prompt_loop tok avail (line :: rest) acc accTok =
      (if acc.isEmpty then [] else [joinLines acc]) ++
      (if tok (joinLines (line :: rest.takeWhile (fun l => !(isFileHeader l)))) ≤ avail
        then [joinLines (line :: rest.takeWhile (fun l => !(isFileHeader l)))]
        else split_large_section tok
          (joinLines (line :: rest.takeWhile (fun l => !(isFileHeader l)))) avail) ++
      split_prompt_loop tok avail (rest.dropWhile (fun l => !(isFileHeader l))) [] 0 := by
  rw [split_prompt_loop]
  simp only [hh, if_true]

/-- Loop step on a non-header line that fits the accumulator. -/
lemma split_prompt_loop_cons_fits (tok : String → Nat) (avail : Nat) (line : String)
    (rest acc : List String) (accTok : Nat) (hh : isFileHeader line = false)
    (hfit : accTok + tok line ≤ avail) :
    split_prompt_loop tok avail (line :: rest) acc accTok =
      split_prompt_loop tok avail rest (acc ++ [line]) (accTok + tok line) := by
  rw [split_prompt_loop]
  simp only [hh, Bool.false_eq_true, if_false, hfit, if_true]

/-- Loop step on a non-header line that overflows a non-empty accumulator:
flush and reconsider the line with an empty accumulator. -/
lemma split_prompt_loop_cons_flush (tok : String → Nat) (avail : Nat) (line : String)
    (rest acc : List String) (accTok : Nat) (hh : isFileHeader line = false)
    (hover : ¬ accTok + tok line ≤ avail) (hne : acc.isEmpty = false) :
    split_prompt_loop tok avail (line :: rest) acc accTok =
      [joinLines acc] ++ split_prompt_loop tok avail (line :: rest) [] 0 := by
  rw [split_prompt_loop]
  simp only [hh, Bool.false_eq_true, if_false, hover, hne]

/-- Running the main loop over a block of non-header lines whose per-line
token counts fit the remaining budget just extends the accumulator. -/
lemma split_prompt_loop_accum (tok : String → Nat) (avail : Nat) :
    ∀ (pre rest acc : List String) (accTok : Nat),
      (∀ l ∈ pre, isFileHeader l = false) →
      accTok + sumTok tok pre ≤ avail →
      split_prompt_loop tok avail (pre ++ rest) acc accTok =
        split_prompt_loop tok avail rest (acc ++ pre) (accTok + sumTok tok pre) := by
  intro pre
  induction pre with
  | nil =>
    intro rest acc accTok _ _
    simp [sumTok]
  | cons l pre' ih =>
    intro rest acc accTok hnh hfit
    have hl : isFileHeader l = false := hnh l (by simp)
    have hsum : sumTok tok (l :: pre') = tok l + sumTok tok pre' := by
      simp [sumTok]
    have hstep : accTok + tok l ≤ avail := by omega
    rw [List.cons_append, split_prompt_loop_cons_fits tok avail l (pre' ++ rest) acc accTok hl hstep]
    rw [ih rest (acc ++ [l]) (accTok + tok l)
      (fun x hx => hnh x (List.mem_cons_of_mem _ hx)) (by omega)]
    have harg1 : acc ++ [l] ++ pre' = acc ++ (l :: pre') := by simp
    have harg2 : accTok + tok l + sumTok tok pre' = accTok + sumTok tok (l :: pre') := by
      omega
    rw [harg1, harg2]

/-- Running the main loop over the lines of a non-empty list of header-led
sections, each of which fits the budget, flushes the pending accumulator and
then emits each section as one chunk. -/
lemma split_prompt_loop_sections (tok : String → Nat) (avail : Nat) :
    ∀ (secs : List (String × List String)) (acc : List String) (accTok : Nat),
      secs ≠ [] →
      (∀ s ∈ secs, isFileHeader s.1 = true ∧ (∀ l ∈ s.2, isFileHeader l = false) ∧
        tok (secChunk s) ≤ avail) →
      split_prompt_loop tok avail (secsLines secs) acc accTok =
        (if acc.isEmpty then [] else [joinLines acc]) ++ secs.map secChunk := by
  intro secs
  induction secs with
  | nil =>
    intro acc accTok hne _
    exact absurd rfl hne
  | cons s rest ih =>
    intro acc accTok _ hok
    obtain ⟨hh, hb, hfit⟩ := hok s (by simp)
    have hsl : secsLines (s :: rest) = s.1 :: (s.2 ++ secsLines rest) := by
      simp [secsLines, secLines]
    rw [hsl, split_prompt_loop_cons_header tok avail s.1 (s.2 ++ secsLines rest) acc accTok hh]
    have hrest_hdr : ∀ t ∈ rest, isFileHeader t.1 = true :=
      fun t ht => (hok t (List.mem_cons_of_mem _ ht)).1
    have htw : (s.2 ++ secsLines rest).takeWhile (fun l => !(isFileHeader l)) = s.2 := by
      rw [takeWhile_append_of_all _ _ _ (fun x hx => by simp [hb x hx])]
      rw [secsLines_takeWhile rest hrest_hdr, List.append_nil]
    have hdw : (s.2 ++ secsLines rest).dropWhile (fun l => !(isFileHeader l)) =
        secsLines rest := by
      rw [dropWhile_append_of_all _ _ _ (fun x hx => by simp [hb x hx])]
      exact secsLines_dropWhile rest hrest_hdr
    rw [htw, hdw]
    have hfit2 : tok (joinLines (s.1 :: s.2)) ≤ avail := hfit
    rw [if_pos hfit2]
    cases rest with
    | nil =>
      rw [show secsLines [] = [] from rfl, split_prompt_loop_nil]
      simp [secChunk, secLines]
    | cons t rest' =>
      rw [ih [] 0 (by simp) (fun u hu => hok u (List.mem_cons_of_mem _ hu))]
      simp [secChunk, secLines]

/-! ### Claim theorems: chunker C7 and C1 -/

/-- C7 (amended): for a prompt made of possibly-empty pre-header content
(non-header lines whose per-line token counts sum to at most the available
budget) followed by N ≥ 1 `"# File:"` sections each of whose joined token
count fits the budget, where the prompt as a whole does not fit,
`split_prompt` returns exactly one chunk per section, preceded by one leading
chunk precisely when pre-header content is present — N chunks, plus one
leading chunk for any pre-header content — each section chunk being one
whole section (hence containing exactly the one header line its section
starts with). -/
theorem section_integrity_amended (tok : String → Nat) (prompt system_prompt : String)
    (max_tokens : Int) (pre : List String) (secs : List (String × List String))
    (hlines : splitLines prompt = pre ++ secsLines secs)
    (hpre_nh : ∀ l ∈ pre, isFileHeader l = false)
    (hsecs_ne : secs ≠ [])
    (havail : 0 < available_tokens_of tok max_tokens system_prompt)
    (hbig : ¬ (tok prompt : Int) ≤ available_tokens_of tok max_tokens system_prompt)
    (hpre_fit : sumTok tok pre ≤ (available_tokens_of tok max_tokens system_prompt).toNat)
    (hsecs : ∀ s ∈ secs, isFileHeader s.1 = true ∧ (∀ l ∈ s.2, isFileHeader l = false) ∧
      tok (secChunk s) ≤ (available_tokens_of tok max_tokens system_prompt).toNat) :
    split_prompt tok prompt max_tokens system_prompt =
      (if pre.isEmpty then [] else [joinLines pre]) ++ secs.map secChunk ∧
    (split_prompt tok prompt max_tokens system_prompt).length =
      secs.length + (if pre.isEmpty then 0 else 1) := by
  have hmain : split_prompt tok prompt max_tokens system_prompt =
      (if pre.isEmpty then [] else [joinLines pre]) ++ secs.map secChunk := by
    unfold split_prompt
    rw [if_neg (by omega), if_neg hbig, hlines]
    rw [split_prompt_loop_accum tok _ pre (secsLines secs) [] 0 hpre_nh (by omega)]
    rw [split_prompt_loop_sections tok _ secs ([] ++ pre) (0 + sumTok tok pre) hsecs_ne hsecs]
    simp only [List.nil_append]
  refine ⟨hmain, ?_⟩
  rw [hmain]
  cases pre with
  | nil => simp
  | cons a l => simp [Nat.add_comm]

/-- Witness for C7 (amended), covering both shapes: with one pre-header line
and two sections against an available budget of `107 - 2 - 100 = 5` tokens
the result is the leading chunk plus one chunk per section, and with the
same two sections and no pre-header content at all the result is exactly the
two section chunks with no leading chunk. -/
theorem section_integrity_amended_witness :
    split_prompt simpleCount promptC7w 107 "ssss" =
      ["intro", "# File: a\nxa", "# File: b\nyb"] ∧
    split_prompt simpleCount promptC7hdr 107 "ssss" =
      ["# File: a\nxa", "# File: b\nyb"] := by
  constructor
  · have h := (section_integrity_amended simpleCount promptC7w "ssss" 107
      ["intro"] [("# File: a", ["xa"]), ("# File: b", ["yb"])]
      (by decide) (by decide) (by decide) (by decide) (by decide) (by decide)
      (by decide)).1
    exact h.trans (by decide)
  · have h := (section_integrity_amended simpleCount promptC7hdr "ssss" 107
      [] [("# File: a", ["xa"]), ("# File: b", ["yb"])]
      (by decide) (by decide) (by decide) (by decide) (by decide) (by decide)
      (by decide)).1
    exact h.trans (by decide)

/-- Counterexample to C7 as stated: with the fallback counter and an
available budget of 5 tokens, the pre-header content
`"ab\nab\nab\nab\nab\nab"` fits the budget as a whole (5 tokens) and the
single section `"# File: x"` fits (3 tokens), the prompt (7 tokens) does
not fit, yet `split_prompt` returns 3 chunks, not the claimed
N + 1 = 2: the loop accumulates per-line token counts (six lines at 1 token
each, sum 6 > 5), so the pre-header content is flushed in two pieces. -/
theorem section_integrity_cex :
    available_tokens_of simpleCount 107 "ssss" = 5 ∧
    simpleCount "ab\nab\nab\nab\nab\nab" ≤ 5 ∧
    simpleCount "# File: x" ≤ 5 ∧
    ¬ simpleCount promptC7 ≤ 5 ∧
    split_prompt simpleCount promptC7 107 "ssss" =
      ["ab\nab\nab\nab\nab", "ab", "# File: x"] ∧
    (split_prompt simpleCount promptC7 107 "ssss").length ≠ 1 + 1 := by
  have hmain : split_prompt simpleCount promptC7 107 "ssss" =
      ["ab\nab\nab\nab\nab", "ab", "# File: x"] := by
    simp only [promptC7, split_prompt, available_tokens_of, system_tokens_of]
    norm_num
    simp [split_prompt_loop, split_large_section, split_large_section_loop, splitLines,
      splitLinesList, joinLines, isFileHeader, startsWithChars, simpleCount]
    decide
  exact ⟨by decide, by decide, by decide, by decide, hmain, by rw [hmain]; decide⟩

/-- C1 (violated by the code): with the fallback counter and an available
budget of `122 - 2 - 100 = 20` tokens, `promptC1` is a single `"# File:"`
section of three lines whose token counts are 10, 11 and 2 — every line fits
the budget individually, so no force-split ever occurs (`_split_large_line`
is only reached when a single line's token count exceeds the budget). The
section as a whole (22 tokens) does not fit, so `_split_large_section`
re-splits it — and emits the chunk `headerC1 ++ "\n" ++ lineC1a` of 21 > 20
tokens: after flushing, the source re-adds the header (10 tokens) and then
appends the next line checked only against `count_tokens(line) <=
max_tokens`, not against the running total including the header. -/
theorem chunk_bound_violated_at_header_resplit :
    available_tokens_of simpleCount 122 "ssss" = 20 ∧
    (∀ l ∈ splitLines promptC1, simpleCount l ≤ 20) ∧
    split_prompt simpleCount promptC1 122 "ssss" =
      [headerC1, headerC1 ++ "\n" ++ lineC1a, headerC1 ++ "\n" ++ lineC1b] ∧
    simpleCount (headerC1 ++ "\n" ++ lineC1a) = 21 := by
  refine ⟨by decide, by decide, ?_, by decide⟩
  simp only [promptC1, headerC1, lineC1a, lineC1b, split_prompt, available_tokens_of,
    system_tokens_of]
  simp [split_prompt_loop, split_large_section, split_large_section_loop, splitLines,
    splitLinesList, joinLines, isFileHeader, startsWithChars, simpleCount]
  decide
